import Mathlib

/-!
# Event-log record service (`api/main.go`)

A shallow embedding of the three request handlers `getData`, `getAllData` and
`postData`, of the route table registered by `main`, and of the library calls
they make (fiber context, validator, Mongo collection), followed by the
properties established about them.

Conventions of the embedding:

* the collection is the list of its documents in the store's natural
  (insertion) order; a handler that writes returns the new collection;
* whatever the handlers cannot control is an explicit argument: the outcome of
  a store call that does not answer (`fault`, the text of the error), and the
  identifiers produced by the two calls of `primitive.NewObjectID` during
  a create (`newId` made by `postData`, `autoId` made by the driver for `_id`);
* a handler returns the HTTP status it sets together with the JSON envelope;
* a Go slice keeps the difference between the nil slice and an empty one,
  which `encoding/json` writes as `null` and as `[]`.
-/

set_option autoImplicit false

namespace BehaviourAnalysis

/-! ## Data model -/

/-- Go `interface{}` values as they come out of a decoded JSON body and as
they are stored in a BSON document. Numbers are carried without being computed
with. The nil interface is `null`. -/
inductive Value where
  | null
  | bool (b : Bool)
  | num (n : Int)
  | str (s : String)
  | arr (items : List Value)
  | obj (fields : List (String × Value))

/-- Whether the interface value is nil. -/
def Value.isNil : Value → Bool
  | .null => true
  | _ => false

/-- The type `primitive.ObjectID`, a `[12]byte`, read as the big-endian number
its twelve bytes spell. -/
abbrev ObjectID := Fin (2 ^ 96)

/-- The zero value `primitive.NilObjectID`. -/
def NilObjectID : ObjectID := ⟨0, by decide⟩

/-- The struct `EventLog` (lines 29-34). -/
structure EventLog where
  Id : ObjectID
  Created : String
  EventName : String
  EventDetails : Value

/-- The zero value of `EventLog`, what `var eventLog EventLog` declares. -/
def EventLog.zero : EventLog := ⟨NilObjectID, "", "", Value.null⟩

/-- The type `mongo.InsertOneResult`: the `_id` of the inserted document. -/
structure InsertOneResult where
  InsertedID : ObjectID

/-- A Go slice value: the nil slice, what `var eventLogs []EventLog` declares
and `encoding/json` writes as `null`, or a slice holding a sequence of
elements, written as a JSON array (`[]` when the sequence is empty). -/
inductive Slice (α : Type) where
  | nil
  | of (elems : List α)

/-- The builtin `append(s, x)`: a slice that is never nil, holding the elements
of `s` followed by `x`. -/
def append {α : Type} : Slice α → α → Slice α
  | Slice.nil, x => Slice.of [x]
  | Slice.of elems, x => Slice.of (elems ++ [x])

/-- Whether `encoding/json` writes the slice as `null`. -/
def Slice.isJSONNull {α : Type} : Slice α → Bool
  | Slice.nil => true
  | Slice.of _ => false

/-- The value stored under the key `"data"` of the `fiber.Map` that a handler
puts in the envelope: an error text, one record, the listing, or the insert
acknowledgment. -/
inductive Payload where
  | diagnostic (msg : String)
  | record (eventLog : EventLog)
  | records (eventLogs : Slice EventLog)
  | inserted (result : InsertOneResult)

/-- The struct `UserResponse` (lines 23-27). -/
structure UserResponse where
  Status : Nat
  Message : String
  Data : Payload

/-- What `c.Status(code).JSON(envelope)` sends: the HTTP status and the
envelope serialised as the body. -/
structure Response where
  code : Nat
  body : UserResponse

/-- The constant `http.StatusOK`. -/
def StatusOK : Nat := 200
/-- The constant `http.StatusCreated`. -/
def StatusCreated : Nat := 201
/-- The constant `http.StatusBadRequest`. -/
def StatusBadRequest : Nat := 400
/-- The constant `http.StatusNotFound`. -/
def StatusNotFound : Nat := 404
/-- The constant `http.StatusInternalServerError`. -/
def StatusInternalServerError : Nat := 500

/-! ## The request context (fiber) -/

/-- The part of `*fiber.Ctx` the handlers read: `Params` is what
`c.Params(key)` returns (the empty string for a key the matched route does not
bind), `BodyParser` is the outcome of `c.BodyParser(&eventLog)` on a zero
`EventLog`: the error, or the struct filled from the body. -/
structure Ctx where
  Params : String → String
  BodyParser : Except String EventLog

/-! ## Identifiers (`bson/primitive`) -/

/-- The value of one hexadecimal digit, as `encoding/hex` reads it. -/
def fromHexChar (c : Char) : Option Nat :=
  if '0' ≤ c ∧ c ≤ '9' then some (c.toNat - '0'.toNat)
  else if 'a' ≤ c ∧ c ≤ 'f' then some (c.toNat - 'a'.toNat + 10)
  else if 'A' ≤ c ∧ c ≤ 'F' then some (c.toNat - 'A'.toNat + 10)
  else none

/-- Reads a run of hexadecimal digits, most significant first, onto `acc`;
`none` at the first character that is not a digit. -/
def decodeHex : List Char → Nat → Option Nat
  | [], acc => some acc
  | c :: cs, acc =>
    match fromHexChar c with
    | none => none
    | some d => decodeHex cs (acc * 16 + d)

/-- The error `primitive.ErrInvalidHex`. -/
def ErrInvalidHex : String := "the provided hex string is not a valid ObjectID"

/-- The function `primitive.ObjectIDFromHex`: the identifier and the error. A
string that is not 24 bytes long, or holds a byte that is not a hexadecimal
digit, gives `NilObjectID` and an error. -/
def ObjectIDFromHex (s : String) : ObjectID × Option String :=
  if s.utf8ByteSize ≠ 24 then (NilObjectID, some ErrInvalidHex)
  else
    match decodeHex s.toList 0 with
    | none => (NilObjectID, some "encoding/hex: invalid byte")
    | some n => (⟨n % 2 ^ 96, Nat.mod_lt _ (by decide)⟩, none)

/-- The lower-case hexadecimal digit of a number below sixteen. -/
def hexDigit (d : Nat) : Char :=
  if d < 10 then Char.ofNat ('0'.toNat + d) else Char.ofNat ('a'.toNat + (d - 10))

/-- The last `n` hexadecimal digits of `v`, most significant first. -/
def hexDigits : Nat → Nat → List Char
  | 0, _ => []
  | n + 1, v => hexDigits n (v / 16) ++ [hexDigit (v % 16)]

/-- The method `ObjectID.Hex`: the 24 digit rendering, also what the JSON
encoding of an identifier shows. -/
def Hex (id : ObjectID) : String := String.mk (hexDigits 24 id.val)

/-! ## The collection (`mongo`) -/

/-- BSON values of a type that neither the string decoder nor the ObjectID
decoder of the driver accepts: a boolean, a number, an array, an embedded
document. -/
inductive Mistyped where
  | bool (b : Bool)
  | num (n : Int)
  | arr (items : List Value)
  | doc (fields : List (String × Value))

/-- The name the driver gives the BSON type in its decode errors. -/
def Mistyped.typeName : Mistyped → String
  | .bool _ => "boolean"
  | .num _ => "double"
  | .arr _ => "array"
  | .doc _ => "embedded document"

/-- What a document holds under the key of a struct field of Go type `α`: a
value of the BSON type of that field, or a value of a type its decoder
rejects. -/
inductive Stored (α : Type) where
  | typed (v : α)
  | mistyped (v : Mistyped)

/-- A document of the collection `app.behaviour_analysis`. `EventLog` carries
no `bson` tags, so the driver writes its fields under the lower-cased field
names `id`, `created`, `eventname`, `eventdetails`; the struct has no `_id`
field, so the driver adds an `_id` of its own. The collection belongs to the
store, so the three typed fields may hold a value of another BSON type than
the one `InsertOne` writes. -/
structure Document where
  _id : ObjectID
  id : Stored ObjectID
  created : Stored String
  eventname : Stored String
  eventdetails : Value

/-- The contents of the collection, in the store's natural order. -/
abbrev Collection := List Document

/-- Whether the filter `bson.M{"id": objId}` matches the document: its `id`
is that ObjectID. -/
def Document.hasId (d : Document) (objId : ObjectID) : Bool :=
  match d.id with
  | .typed v => v == objId
  | .mistyped _ => false

/-- The error `mongo.ErrNoDocuments`. -/
def ErrNoDocuments : String := "mongo: no documents in result"

/-- The call `eventLogCollection.FindOne(ctx, bson.M{"id": objId})`: the
store's failure when it does not answer, else the first document whose `id`
field equals `objId`, else `ErrNoDocuments`. -/
def FindOne (fault : Option String) (coll : Collection) (objId : ObjectID) :
    Except String Document :=
  match fault with
  | some err => .error err
  | none =>
    match coll.find? (fun d => d.hasId objId) with
    | none => .error ErrNoDocuments
    | some d => .ok d

/-- The driver's decoding of a document into an `EventLog`, key by key: a
value of a rejected type under `id`, `created` or `eventname` is an error; the
`interface{}` field `EventDetails` is set to the stored value, whatever its
shape and whatever the field held before. -/
def decodeDocument (d : Document) : Except String EventLog :=
  match d.id with
  | .mistyped v =>
    .error ("error decoding key id: cannot decode " ++ v.typeName ++ " into an ObjectID")
  | .typed id =>
    match d.created with
    | .mistyped v =>
      .error ("error decoding key created: cannot decode " ++ v.typeName ++
        " into a string type")
    | .typed created =>
      match d.eventname with
      | .mistyped v =>
        .error ("error decoding key eventname: cannot decode " ++ v.typeName ++
          " into a string type")
      | .typed eventname => .ok ⟨id, created, eventname, d.eventdetails⟩

/-- The method `SingleResult.Decode(&eventLog)` on a zero `EventLog`: passes
on the error of the lookup, else decodes the document found. -/
def SingleResultDecode (r : Except String Document) : Except String EventLog :=
  match r with
  | .error err => .error err
  | .ok d => decodeDocument d

/-- The call `eventLogCollection.Find(ctx, bson.M{})`: the store's failure, or
a cursor over every document. -/
def Find (fault : Option String) (coll : Collection) : Except String (List Document) :=
  match fault with
  | some err => .error err
  | none => .ok coll

/-- The call `results.Decode(&singleEventLog)` of line 105, on
`EventLog{EventDetails: &details}` with `details` a nil `map[string]string`.
The driver decodes an `interface{}` field by the BSON type of the stored value
and overwrites the field; it does not decode into the pointer the field held,
so `details` stays nil and the outcome is that of decoding into a zero
`EventLog`. -/
def CursorDecode (d : Document) : Except String EventLog :=
  decodeDocument d

/-- The call `eventLogCollection.InsertOne(ctx, newEventLog)`: the store's
failure, or the collection with the new document at its end and the
acknowledgment carrying the `_id` the driver gave it. -/
def InsertOne (fault : Option String) (coll : Collection) (autoId : ObjectID)
    (e : EventLog) : Except String (InsertOneResult × Collection) :=
  match fault with
  | some err => .error err
  | none =>
    .ok (⟨autoId⟩,
      coll ++ [⟨autoId, .typed e.Id, .typed e.Created, .typed e.EventName, e.EventDetails⟩])

/-! ## Validation (`validator`) -/

/-- The message of one failed `required` tag. -/
def fieldErrMsg (field : String) : String :=
  "Key: \x27EventLog." ++ field ++ "\x27 Error:Field validation for \x27" ++ field ++
    "\x27 failed on the \x27required\x27 tag"

/-- The fields of an `EventLog` whose `validate:"required"` tag fails: a
string field that is empty, the `interface{}` field when it is nil. -/
def requiredFailures (e : EventLog) : List String :=
  (if e.Created = "" then ["Created"] else []) ++
  (if e.EventName = "" then ["EventName"] else []) ++
  (if e.EventDetails.isNil then ["EventDetails"] else [])

/-- The call `validate.Struct(&eventLog)`: `none` for a nil error, else the
text of the validation errors. -/
def validateStruct (e : EventLog) : Option String :=
  match requiredFailures e with
  | [] => none
  | fs => some (String.intercalate "\n" (fs.map fieldErrMsg))

/-! ## The handlers -/

/-- The handler `getData` (lines 74-88). -/
def getData (c : Ctx) (fault : Option String) (coll : Collection) : Response :=
  let eventLogId := c.Params "eventLogId"
  let objId := (ObjectIDFromHex eventLogId).1
  match SingleResultDecode (FindOne fault coll objId) with
  | .error err =>
    ⟨StatusInternalServerError, ⟨StatusInternalServerError, "error", .diagnostic err⟩⟩
  | .ok eventLog => ⟨StatusOK, ⟨StatusOK, "success", .record eventLog⟩⟩

/-- The loop `for results.Next(ctx)` of lines 102-109: decodes the remaining
documents of the cursor one by one, appending to `eventLogs`, and stops with
the error of the first document that does not decode. -/
def decodeAll : List Document → Slice EventLog → Except String (Slice EventLog)
  | [], eventLogs => .ok eventLogs
  | d :: rest, eventLogs =>
    match CursorDecode d with
    | .error err => .error err
    | .ok singleEventLog => decodeAll rest (append eventLogs singleEventLog)

/-- The handler `getAllData` (lines 90-114); `eventLogs` starts as the nil
slice of line 92. -/
def getAllData (fault : Option String) (coll : Collection) : Response :=
  match Find fault coll with
  | .error err =>
    ⟨StatusInternalServerError, ⟨StatusInternalServerError, "error", .diagnostic err⟩⟩
  | .ok results =>
    match decodeAll results Slice.nil with
    | .error err =>
      ⟨StatusInternalServerError,
        ⟨StatusInternalServerError, "error parsing top level data", .diagnostic err⟩⟩
    | .ok eventLogs => ⟨StatusOK, ⟨StatusOK, "success", .records eventLogs⟩⟩

/-- The handler `postData` (lines 116-143): the response and the collection
after the call. -/
def postData (c : Ctx) (newId autoId : ObjectID) (fault : Option String)
    (coll : Collection) : Response × Collection :=
  match c.BodyParser with
  | .error err => (⟨StatusBadRequest, ⟨StatusBadRequest, "error", .diagnostic err⟩⟩, coll)
  | .ok eventLog =>
    match validateStruct eventLog with
    | some validationErr =>
      (⟨StatusBadRequest, ⟨StatusBadRequest, "error", .diagnostic validationErr⟩⟩, coll)
    | none =>
      let newEventLog : EventLog :=
        ⟨newId, eventLog.Created, eventLog.EventName, eventLog.EventDetails⟩
      match InsertOne fault coll autoId newEventLog with
      | .error err =>
        (⟨StatusInternalServerError,
          ⟨StatusInternalServerError, "error", .diagnostic err⟩⟩, coll)
      | .ok (result, coll') =>
        (⟨StatusCreated, ⟨StatusCreated, "success", .inserted result⟩⟩, coll')

/-! ## Route registration (`main`) -/

/-- The three handler functions a route can name. -/
inductive Handler where
  | getData
  | getAllData
  | postData

/-- One registration `app.Get(path, handler)` or `app.Post(path, handler)`. -/
structure Route where
  method : String
  path : String
  handler : Handler

/-- The routes registered by `main` (lines 147-149), in order. -/
def main : List Route :=
  [⟨"GET", "/data", Handler.getData⟩,
   ⟨"GET", "/alldata", Handler.getAllData⟩,
   ⟨"POST", "/event/submit", Handler.postData⟩]

/-- The non-empty segments between the slashes of a path; `cur` is the segment
being read. -/
def splitPath : List Char → List Char → List (List Char)
  | [], cur => if cur.isEmpty then [] else [cur]
  | c :: cs, cur =>
    if c = '/' then (if cur.isEmpty then splitPath cs [] else cur :: splitPath cs [])
    else splitPath cs (cur ++ [c])

/-- Matches the segments of a route pattern against those of a request path:
a segment `:name` binds the parameter `name`, any other segment must be equal.
The result lists the bound parameters. Case folding of paths is not modelled. -/
def matchSegments : List (List Char) → List (List Char) → Option (List (String × String))
  | [], [] => some []
  | p :: ps, s :: ss =>
    match p with
    | ':' :: name => (matchSegments ps ss).map (fun bs => (String.mk name, String.mk s) :: bs)
    | _ => if p = s then matchSegments ps ss else none
  | _, _ => none

/-- The parameters a route pattern binds on a request path, when it matches. -/
def matchRoute (pattern path : String) : Option (List (String × String)) :=
  matchSegments (splitPath pattern.toList []) (splitPath path.toList [])

/-- An incoming request: method, path, query string pairs, and the outcome
`c.BodyParser` would have on its body. -/
structure Request where
  method : String
  path : String
  query : List (String × String)
  BodyParser : Except String EventLog

/-- The method `c.Params(key)` for a route that bound `bindings`: the bound
value, or the empty string for a key the route does not bind. -/
def paramsOf (bindings : List (String × String)) (key : String) : String :=
  match bindings.find? (fun b => b.1 == key) with
  | some b => b.2
  | none => ""

/-- The context fiber hands to the handler of a matched route. The query
string is not part of what `c.Params` reads. -/
def ctxOf (bindings : List (String × String)) (req : Request) : Ctx :=
  ⟨paramsOf bindings, req.BodyParser⟩

/-- The application built by `main`: finds the first registered route with the
request's method whose path matches, and runs its handler on the collection;
`none` when no route matches (fiber then answers by itself). -/
def serve (req : Request) (newId autoId : ObjectID) (fault : Option String)
    (coll : Collection) : Option (Response × Collection) :=
  match main.find? (fun r => r.method == req.method && (matchRoute r.path req.path).isSome) with
  | none => none
  | some r =>
    let c := ctxOf ((matchRoute r.path req.path).getD []) req
    match r.handler with
    | Handler.getData => some (getData c fault coll, coll)
    | Handler.getAllData => some (getAllData fault coll, coll)
    | Handler.postData => some (postData c newId autoId fault coll)

/-! ## Sample data used to instantiate the theorems -/

/-- A payload as in the scenario of the specification:
`created = 2024-01-01T00:00:00Z`, `event_name = login`,
`event_details = (user: alice)`; it carries no inbound id. -/
def loginPayload : EventLog :=
  ⟨NilObjectID, "2024-01-01T00:00:00Z", "login", Value.obj [("user", Value.str "alice")]⟩

/-- A payload whose `event_details` holds a number and a nested document with
an array. -/
def countPayload : EventLog :=
  ⟨NilObjectID, "2024-01-02T08:30:00Z", "retry",
    Value.obj [("attempts", Value.num 3),
      ("client", Value.obj [("tags", Value.arr [Value.str "web", Value.bool true])])]⟩

/-- The identifier `65920080a1b2c3d4e5000001`. -/
def idA : ObjectID := ⟨0x65920080a1b2c3d4e5000001, by decide⟩

/-- The identifier `65920080a1b2c3d4e5000002`, the one generated after `idA`. -/
def idB : ObjectID := ⟨0x65920080a1b2c3d4e5000002, by decide⟩

/-- The identifier `65920081a1b2c3d4e5000003`. -/
def idC : ObjectID := ⟨0x65920081a1b2c3d4e5000003, by decide⟩

/-- The identifier `65920081a1b2c3d4e5000004`. -/
def idD : ObjectID := ⟨0x65920081a1b2c3d4e5000004, by decide⟩

/-- The document `postData` stores for the login payload with the ids `idA`
(the record) and `idB` (the `_id` given by the driver). -/
def loginDocument : Document :=
  ⟨idB, Stored.typed idA, Stored.typed "2024-01-01T00:00:00Z", Stored.typed "login",
    Value.obj [("user", Value.str "alice")]⟩

/-- A document, written to the collection by another client, whose `created`
is a number instead of a string. -/
def numericCreatedDocument : Document :=
  ⟨idD, Stored.typed idC, Stored.mistyped (Mistyped.num 1704184200), Stored.typed "retry",
    Value.obj [("user", Value.str "bob")]⟩

/-- A document whose `id` is the zero ObjectID. -/
def zeroIdDocument : Document :=
  ⟨idB, Stored.typed NilObjectID, Stored.typed "2024-01-01T00:00:00Z", Stored.typed "login",
    Value.null⟩

/-- A context whose route binds no parameter and whose body parses to `p`. -/
def submit (p : EventLog) : Ctx := ⟨fun _ => "", Except.ok p⟩

/-- Whether a string is the rendering of a 12-byte id: 24 characters, each a
hexadecimal digit. -/
def isObjectIDHex (s : String) : Bool :=
  s.length == 24 && s.toList.all (fun ch => (fromHexChar ch).isSome)

/-- Runs `postData` on each request in turn, the store answering every time,
and gives the collection after the last one. A request is a context with the
two identifiers generated while it is handled. -/
def createAll : List (Ctx × ObjectID × ObjectID) → Collection → Collection
  | [], coll => coll
  | (c, newId, autoId) :: rest, coll => createAll rest (postData c newId autoId none coll).2

/-- The document `InsertOne` writes for a payload, with the id generated for
the record and the `_id` given by the driver. -/
def storedDocument (p : EventLog) (newId autoId : ObjectID) : Document :=
  ⟨autoId, Stored.typed newId, Stored.typed p.Created, Stored.typed p.EventName,
    p.EventDetails⟩

/-- The record read back from the document stored for a payload. -/
def storedRecord (p : EventLog) (newId : ObjectID) : EventLog :=
  ⟨newId, p.Created, p.EventName, p.EventDetails⟩

/-! ## Auxiliary facts -/

theorem isNil_eq_false_of_ne {v : Value} (h : v ≠ Value.null) : v.isNil = false := by
  cases v <;> simp_all [Value.isNil]

theorem requiredFailures_eq_nil {e : EventLog} (hc : e.Created ≠ "") (hn : e.EventName ≠ "")
    (hd : e.EventDetails ≠ Value.null) : requiredFailures e = [] := by
  simp [requiredFailures, hc, hn, isNil_eq_false_of_ne hd]

theorem validateStruct_eq_none {e : EventLog} (hc : e.Created ≠ "") (hn : e.EventName ≠ "")
    (hd : e.EventDetails ≠ Value.null) : validateStruct e = none := by
  simp [validateStruct, requiredFailures_eq_nil hc hn hd]

theorem requiredFailures_ne_nil {e : EventLog}
    (h : e.Created = "" ∨ e.EventName = "" ∨ e.EventDetails = Value.null) :
    requiredFailures e ≠ [] := by
  rcases h with h | h | h
  · simp [requiredFailures, h]
  · simp [requiredFailures, h]
  · simp [requiredFailures, h, Value.isNil]

theorem validateStruct_isSome {e : EventLog}
    (h : e.Created = "" ∨ e.EventName = "" ∨ e.EventDetails = Value.null) :
    ∃ msg, validateStruct e = some msg := by
  have hne := requiredFailures_ne_nil h
  unfold validateStruct
  cases hfs : requiredFailures e with
  | nil => exact absurd hfs hne
  | cons f fs => exact ⟨_, rfl⟩

/-- The listing loop fails as soon as one remaining document does not decode,
whatever has been accumulated. -/
theorem decodeAll_error_of_mem {docs : List Document} {d : Document}
    (hd : d ∈ docs) (hbad : ∃ err, CursorDecode d = Except.error err) :
    ∀ acc, ∃ err, decodeAll docs acc = Except.error err := by
  induction docs with
  | nil => cases hd
  | cons x rest ih =>
    intro acc
    cases hx : CursorDecode x with
    | error err => exact ⟨err, by simp [decodeAll, hx]⟩
    | ok ev =>
      have hmem : d ∈ rest := by
        rcases List.mem_cons.mp hd with h | h
        · subst h
          obtain ⟨err, herr⟩ := hbad
          rw [hx] at herr
          cases herr
        · exact h
      obtain ⟨err, herr⟩ := ih hmem (append acc ev)
      exact ⟨err, by simp [decodeAll, hx, herr]⟩

/-- The listing loop succeeds only when every remaining document decodes. -/
theorem decodeAll_ok_forall {docs : List Document} :
    ∀ {acc es}, decodeAll docs acc = Except.ok es →
      ∀ d ∈ docs, ∃ ev, CursorDecode d = Except.ok ev := by
  induction docs with
  | nil => intro _ _ _ d hd; cases hd
  | cons x rest ih =>
    intro acc es h d hd
    cases hx : CursorDecode x with
    | error err => simp [decodeAll, hx] at h
    | ok ev =>
      simp only [decodeAll, hx] at h
      rcases List.mem_cons.mp hd with hdx | hdr
      · subst hdx; exact ⟨ev, hx⟩
      · exact ih h d hdr

/-- The listing loop fails only at a document that does not decode. -/
theorem decodeAll_error_exists {docs : List Document} :
    ∀ {acc err}, decodeAll docs acc = Except.error err →
      ∃ d ∈ docs, ∃ err', CursorDecode d = Except.error err' := by
  induction docs with
  | nil => intro _ _ h; simp [decodeAll] at h
  | cons x rest ih =>
    intro acc err h
    cases hx : CursorDecode x with
    | error err' => exact ⟨x, List.mem_cons_self _ _, err', hx⟩
    | ok ev =>
      simp only [decodeAll, hx] at h
      obtain ⟨d, hd, hbad⟩ := ih h
      exact ⟨d, List.mem_cons_of_mem _ hd, hbad⟩

theorem CursorDecode_storedDocument (p : EventLog) (newId autoId : ObjectID) :
    CursorDecode (storedDocument p newId autoId) = Except.ok (storedRecord p newId) := by
  rfl

/-- On documents written by `InsertOne` the loop appends every record, in
order, to a slice that is not nil. -/
theorem decodeAll_stored (xs : List (EventLog × ObjectID × ObjectID)) :
    ∀ acc : List EventLog,
      decodeAll (xs.map fun x => storedDocument x.1 x.2.1 x.2.2) (Slice.of acc) =
        Except.ok (Slice.of (acc ++ xs.map fun x => storedRecord x.1 x.2.1)) := by
  induction xs with
  | nil => intro acc; simp [decodeAll]
  | cons x rest ih =>
    intro acc
    simp only [List.map_cons, decodeAll, CursorDecode_storedDocument, append]
    rw [ih]
    simp

/-- On at least one document written by `InsertOne`, the loop started on the
nil slice ends with the slice of all the records. -/
theorem decodeAll_stored_nil (x : EventLog × ObjectID × ObjectID)
    (rest : List (EventLog × ObjectID × ObjectID)) :
    decodeAll ((x :: rest).map fun x => storedDocument x.1 x.2.1 x.2.2) Slice.nil =
      Except.ok (Slice.of ((x :: rest).map fun x => storedRecord x.1 x.2.1)) := by
  simp only [List.map_cons, decodeAll, CursorDecode_storedDocument, append]
  rw [decodeAll_stored]
  simp

theorem fromHexChar_utf8Size {ch : Char} {d : Nat} (h : fromHexChar ch = some d) :
    ch.utf8Size = 1 := by
  have hle : ch.val.toBitVec.toNat ≤ 102 := by
    unfold fromHexChar at h
    simp only [Char.le_def] at h
    split_ifs at h with h1 h2 h3
    · have := h1.2; simp [UInt32.le_def, BitVec.le_def] at this; omega
    · have := h2.2; simp [UInt32.le_def, BitVec.le_def] at this; omega
    · have := h3.2; simp [UInt32.le_def, BitVec.le_def] at this; omega
  simp [Char.utf8Size, UInt32.le_def, BitVec.le_def, BitVec.lt_def]
  intro h; omega

theorem utf8ByteSize_go_eq_length {cs : List Char} (h : ∀ ch ∈ cs, ch.utf8Size = 1) :
    String.utf8ByteSize.go cs = cs.length := by
  induction cs with
  | nil => rfl
  | cons c cs ih =>
    simp only [String.utf8ByteSize.go, List.length_cons]
    rw [ih (fun ch hch => h ch (List.mem_cons_of_mem _ hch)), h c (List.mem_cons_self _ _)]

theorem decodeHex_all_hex {cs : List Char} :
    ∀ {acc n : Nat}, decodeHex cs acc = some n → ∀ ch ∈ cs, ∃ d, fromHexChar ch = some d := by
  induction cs with
  | nil => intro _ _ _ ch hch; cases hch
  | cons c cs ih =>
    intro acc n h ch hch
    cases hc : fromHexChar c with
    | none => simp [decodeHex, hc] at h
    | some d =>
      simp only [decodeHex, hc] at h
      rcases List.mem_cons.mp hch with hh | hh
      · subst hh; exact ⟨d, hc⟩
      · exact ih h ch hh

/-- A string that is not 24 hexadecimal digits is rejected by
`ObjectIDFromHex`, which then yields the zero id. -/
theorem ObjectIDFromHex_invalid {s : String} (h : isObjectIDHex s = false) :
    (ObjectIDFromHex s).1 = NilObjectID ∧ ∃ err, (ObjectIDFromHex s).2 = some err := by
  unfold ObjectIDFromHex
  split_ifs with hsize
  · exact ⟨rfl, _, rfl⟩
  · cases hdec : decodeHex s.toList 0 with
    | none => exact ⟨rfl, _, rfl⟩
    | some n =>
      exfalso
      have hall := decodeHex_all_hex hdec
      have hlen : s.length = 24 := by
        have h1 : s.utf8ByteSize = s.toList.length := by
          cases s with
          | mk cs =>
            exact utf8ByteSize_go_eq_length (fun ch hch => by
              obtain ⟨d, hd⟩ := hall ch hch
              exact fromHexChar_utf8Size hd)
        have h2 : s.utf8ByteSize = 24 := by simpa using hsize
        have h3 : s.length = s.toList.length := by cases s; rfl
        rw [h3, ← h1]; exact h2
      have : isObjectIDHex s = true := by
        simp only [isObjectIDHex, hlen, beq_self_eq_true, Bool.true_and, List.all_eq_true]
        intro ch hch
        obtain ⟨d, hd⟩ := hall ch hch
        simp [hd]
      rw [this] at h
      cases h

/-- The lookup finds nothing when no document carries the id. -/
theorem find_eq_none_of_no_id {coll : Collection} {objId : ObjectID}
    (h : ∀ d ∈ coll, d.id ≠ Stored.typed objId) :
    coll.find? (fun d => d.hasId objId) = none := by
  rw [List.find?_eq_none]
  intro d hd
  have hne := h d hd
  unfold Document.hasId
  cases hid : d.id with
  | typed v =>
    simp only [beq_iff_eq, Bool.not_eq_true]
    rw [hid] at hne
    simpa using fun hv => hne (by rw [hv])
  | mistyped v => simp

/-- The handler `getData` turns the outcome of the lookup and of the decoding
into the envelope. -/
theorem getData_eq (c : Ctx) (fault : Option String) (coll : Collection) :
    getData c fault coll =
      match SingleResultDecode
        (FindOne fault coll (ObjectIDFromHex (c.Params "eventLogId")).1) with
      | Except.error err => ⟨500, ⟨500, "error", Payload.diagnostic err⟩⟩
      | Except.ok eventLog => ⟨200, ⟨200, "success", Payload.record eventLog⟩⟩ := by
  simp only [getData]
  cases SingleResultDecode (FindOne fault coll (ObjectIDFromHex (c.Params "eventLogId")).1) <;>
    rfl

/-- A valid payload is validated, given the fresh id and inserted at the end
of the collection. -/
theorem postData_of_valid {c : Ctx} {q : EventLog} (newId autoId : ObjectID)
    (coll : Collection) (hparse : c.BodyParser = Except.ok q) (hcreated : q.Created ≠ "")
    (hname : q.EventName ≠ "") (hdetails : q.EventDetails ≠ Value.null) :
    postData c newId autoId none coll =
      (⟨201, ⟨201, "success", Payload.inserted ⟨autoId⟩⟩⟩,
        coll ++ [⟨autoId, Stored.typed newId, Stored.typed q.Created,
          Stored.typed q.EventName, q.EventDetails⟩]) := by
  have hv : validateStruct q = none := validateStruct_eq_none hcreated hname hdetails
  simp [postData, hparse, hv, InsertOne, StatusCreated]

/-- A run of valid creates appends one document per request, in order. -/
theorem createAll_valid (reqs : List (Ctx × EventLog × ObjectID × ObjectID))
    (hvalid : ∀ x ∈ reqs, x.1.BodyParser = Except.ok x.2.1 ∧ x.2.1.Created ≠ "" ∧
      x.2.1.EventName ≠ "" ∧ x.2.1.EventDetails ≠ Value.null) :
    ∀ coll : Collection,
      createAll (reqs.map fun x => (x.1, x.2.2.1, x.2.2.2)) coll =
        coll ++ reqs.map fun x => storedDocument x.2.1 x.2.2.1 x.2.2.2 := by
  induction reqs with
  | nil => intro coll; simp [createAll]
  | cons x rest ih =>
    intro coll
    obtain ⟨hp, hc, hn, hd⟩ := hvalid x (List.mem_cons_self _ _)
    simp only [List.map_cons, createAll]
    rw [postData_of_valid x.2.2.1 x.2.2.2 coll hp hc hn hd,
      ih (fun y hy => hvalid y (List.mem_cons_of_mem _ hy))]
    simp [storedDocument]

/-- After at least one valid create on an empty collection, whatever the
shape of the details, the listing answers 200 with the records of all the
creates, in order, each with the fields of its payload. -/
theorem getAllData_after_creates (req : Ctx × EventLog × ObjectID × ObjectID)
    (reqs : List (Ctx × EventLog × ObjectID × ObjectID))
    (hvalid : ∀ x ∈ req :: reqs, x.1.BodyParser = Except.ok x.2.1 ∧ x.2.1.Created ≠ "" ∧
      x.2.1.EventName ≠ "" ∧ x.2.1.EventDetails ≠ Value.null) :
    getAllData none (createAll ((req :: reqs).map fun x => (x.1, x.2.2.1, x.2.2.2)) []) =
      ⟨200, ⟨200, "success", Payload.records (Slice.of ((req :: reqs).map fun x =>
        storedRecord x.2.1 x.2.2.1))⟩⟩ := by
  rw [createAll_valid (req :: reqs) hvalid []]
  have h := decodeAll_stored_nil (req.2.1, req.2.2.1, req.2.2.2)
    (reqs.map fun x => (x.2.1, x.2.2.1, x.2.2.2))
  simp only [List.map_cons, List.map_map, Function.comp_def] at h
  simp only [getAllData, Find, List.nil_append, List.map_cons, h, StatusOK]

/-! ## Properties of `postData` -/

/-- C1: when the body deserializes to a payload with non-empty `created` and
`event_name` and non-null `event_details`, and the insert succeeds, `postData`
answers 201 with message "success" and the insert acknowledgment, and the
collection gains exactly one document, at its end, whose `created`,
`eventname` and `eventdetails` are the payload's and whose `id` is the freshly
generated `newId`; the same holds whatever id the inbound payload carries. -/
theorem postData_valid_created (c : Ctx) (p : EventLog) (newId autoId : ObjectID)
    (coll : Collection) (hparse : c.BodyParser = Except.ok p) (hcreated : p.Created ≠ "")
    (hname : p.EventName ≠ "") (hdetails : p.EventDetails ≠ Value.null) :
    postData c newId autoId none coll =
        (⟨201, ⟨201, "success", Payload.inserted ⟨autoId⟩⟩⟩,
          coll ++ [⟨autoId, Stored.typed newId, Stored.typed p.Created,
            Stored.typed p.EventName, p.EventDetails⟩]) ∧
      ∀ inboundId : ObjectID,
        postData ⟨c.Params, Except.ok ⟨inboundId, p.Created, p.EventName, p.EventDetails⟩⟩
            newId autoId none coll =
          postData c newId autoId none coll := by
  have hmain := postData_of_valid newId autoId coll hparse hcreated hname hdetails
  refine ⟨hmain, fun inboundId => ?_⟩
  rw [hmain]
  exact postData_of_valid (q := ⟨inboundId, p.Created, p.EventName, p.EventDetails⟩)
    newId autoId coll rfl hcreated hname hdetails

/-- Instance of C1 on the login payload and an empty collection, and on the
same payload carrying the inbound id `idC`. -/
theorem postData_valid_created_witness :
    (loginPayload.Created ≠ "" ∧ loginPayload.EventName ≠ "" ∧
        loginPayload.EventDetails ≠ Value.null) ∧
      postData (submit loginPayload) idA idB none [] =
        (⟨201, ⟨201, "success", Payload.inserted ⟨idB⟩⟩⟩,
          [] ++ [⟨idB, Stored.typed idA, Stored.typed loginPayload.Created,
            Stored.typed loginPayload.EventName, loginPayload.EventDetails⟩]) ∧
      postData ⟨(submit loginPayload).Params, Except.ok ⟨idC, loginPayload.Created,
          loginPayload.EventName, loginPayload.EventDetails⟩⟩ idA idB none [] =
        postData (submit loginPayload) idA idB none [] :=
  have hd : loginPayload.EventDetails ≠ Value.null := by simp [loginPayload]
  have h := postData_valid_created (submit loginPayload) loginPayload idA idB [] rfl
    (by decide) (by decide) hd
  ⟨⟨by decide, by decide, hd⟩, h.1, h.2 idC⟩

/-- C3: when the body deserializes but `created` or `event_name` is empty or
`event_details` is null, `postData` answers 400 with message "error" and the
text of the validation error, whatever the state of the store, and the
collection after the call is the collection before it. -/
theorem postData_missing_field (c : Ctx) (p : EventLog) (newId autoId : ObjectID)
    (fault : Option String) (coll : Collection) (hparse : c.BodyParser = Except.ok p)
    (hmissing : p.Created = "" ∨ p.EventName = "" ∨ p.EventDetails = Value.null) :
    (postData c newId autoId fault coll).1.code = 400 ∧
      (postData c newId autoId fault coll).1.body.Status = 400 ∧
      (postData c newId autoId fault coll).1.body.Message = "error" ∧
      (postData c newId autoId fault coll).1.body.Data =
        Payload.diagnostic ((validateStruct p).getD "") ∧
      validateStruct p ≠ none ∧
      (postData c newId autoId fault coll).2 = coll := by
  obtain ⟨msg, hmsg⟩ := validateStruct_isSome hmissing
  simp [postData, hparse, hmsg, StatusBadRequest]

/-- Instance of C3 on the login payload with its `event_details` omitted. -/
theorem postData_missing_field_witness :
    (postData (submit ⟨NilObjectID, "2024-01-01T00:00:00Z", "login", Value.null⟩)
        idA idB none []).1.code = 400 ∧
      (postData (submit ⟨NilObjectID, "2024-01-01T00:00:00Z", "login", Value.null⟩)
        idA idB none []).2 = [] :=
  have h := postData_missing_field
    (submit ⟨NilObjectID, "2024-01-01T00:00:00Z", "login", Value.null⟩)
    ⟨NilObjectID, "2024-01-01T00:00:00Z", "login", Value.null⟩ idA idB none [] rfl
    (Or.inr (Or.inr rfl))
  ⟨h.1, h.2.2.2.2.2⟩

/-- C4: when the body does not deserialize, `postData` answers 400 at once
with the parser's error as the diagnostic (so before validation), and leaves
the collection as it was; the store is not called, since the outcome is the
same whatever the store would have answered. -/
theorem postData_malformed_body (c : Ctx) (err : String) (newId autoId : ObjectID)
    (fault : Option String) (coll : Collection) (hparse : c.BodyParser = Except.error err) :
    postData c newId autoId fault coll =
      (⟨400, ⟨400, "error", Payload.diagnostic err⟩⟩, coll) := by
  simp [postData, hparse, StatusBadRequest]

/-- Instance of C4 on a body the parser rejects, with the store down. -/
theorem postData_malformed_body_witness :
    postData ⟨fun _ => "", Except.error "unexpected end of JSON input"⟩ idA idB
        (some "context deadline exceeded") [] =
      (⟨400, ⟨400, "error", Payload.diagnostic "unexpected end of JSON input"⟩⟩, []) :=
  postData_malformed_body ⟨fun _ => "", Except.error "unexpected end of JSON input"⟩
    "unexpected end of JSON input" idA idB (some "context deadline exceeded") [] rfl

/-! ## Properties of `getData` -/

/-- C6: when the store lookup fails, or when no document of the collection
carries the id decoded from the request, `getData` answers 500 with message
"error" and a diagnostic string as payload; the status is not 404, and the
status and the message are the same in the two cases. -/
theorem getData_miss_or_failure (c : Ctx) (fault : Option String) (coll : Collection)
    (h : (∃ err, fault = some err) ∨
      ∀ d ∈ coll, d.id ≠ Stored.typed (ObjectIDFromHex (c.Params "eventLogId")).1) :
    (getData c fault coll).code = 500 ∧
      (getData c fault coll).body.Status = 500 ∧
      (getData c fault coll).body.Message = "error" ∧
      (∃ msg, (getData c fault coll).body.Data = Payload.diagnostic msg) ∧
      (getData c fault coll).code ≠ StatusNotFound := by
  rw [getData_eq]
  cases fault with
  | some err => simp [FindOne, SingleResultDecode, StatusNotFound]
  | none =>
    rcases h with ⟨err, herr⟩ | hmiss
    · cases herr
    · simp [FindOne, SingleResultDecode, find_eq_none_of_no_id hmiss, StatusNotFound]

/-- Instance of C6: a well-formed id that no document carries, looked up in
the collection left by one create. -/
theorem getData_miss_or_failure_witness :
    (getData ⟨fun _ => Hex idB, Except.ok EventLog.zero⟩ none [loginDocument]).code = 500 ∧
      (getData ⟨fun _ => Hex idB, Except.ok EventLog.zero⟩ none
        [loginDocument]).body.Message = "error" :=
  have h := getData_miss_or_failure ⟨fun _ => Hex idB, Except.ok EventLog.zero⟩ none
    [loginDocument]
    (Or.inr (fun d hd hid => by
      rw [List.mem_singleton] at hd
      subst hd
      exact absurd (Stored.typed.inj hid) (by decide)))
  ⟨h.1, h.2.2.1⟩

/-- C9, as stated, fails: with a document whose `id` is the zero id in the
collection, an id string that is not 24 hexadecimal digits is answered with
200 and that document, not with 500. -/
theorem getData_invalid_id_not_always_500 :
    ¬ ∀ (c : Ctx) (coll : Collection), isObjectIDHex (c.Params "eventLogId") = false →
      (getData c none coll).code = 500 := by
  intro h
  have h200 : (getData ⟨fun _ => "not-an-id", Except.ok EventLog.zero⟩ none
      [zeroIdDocument]).code = 200 := by
    decide
  have h500 := h ⟨fun _ => "not-an-id", Except.ok EventLog.zero⟩ [zeroIdDocument] (by decide)
  rw [h200] at h500
  exact absurd h500 (by decide)

/-- C9, amended: for an id string that is not 24 hexadecimal digits,
`ObjectIDFromHex` reports an error that `getData` drops, the lookup is made
with the zero id, and the answer is a well-formed envelope: status 500 with
message "error" and a diagnostic whenever no document of the collection has
the zero id as its `id`, and in every case either that or 200 with the
document found. -/
theorem getData_invalid_id (c : Ctx) (fault : Option String) (coll : Collection)
    (hinvalid : isObjectIDHex (c.Params "eventLogId") = false) :
    (∃ err, ObjectIDFromHex (c.Params "eventLogId") = (NilObjectID, some err)) ∧
      (getData c fault coll =
        match SingleResultDecode (FindOne fault coll NilObjectID) with
        | Except.error err => ⟨500, ⟨500, "error", Payload.diagnostic err⟩⟩
        | Except.ok eventLog => ⟨200, ⟨200, "success", Payload.record eventLog⟩⟩) ∧
      ((∀ d ∈ coll, d.id ≠ Stored.typed NilObjectID) →
        (getData c fault coll).code = 500 ∧ (getData c fault coll).body.Status = 500 ∧
          (getData c fault coll).body.Message = "error" ∧
          ∃ msg, (getData c fault coll).body.Data = Payload.diagnostic msg) ∧
      (((getData c fault coll).code = 500 ∧ (getData c fault coll).body.Status = 500 ∧
          (getData c fault coll).body.Message = "error") ∨
        ((getData c fault coll).code = 200 ∧ (getData c fault coll).body.Status = 200 ∧
          (getData c fault coll).body.Message = "success")) := by
  obtain ⟨hnil, err, herr⟩ := ObjectIDFromHex_invalid hinvalid
  have hpair : ObjectIDFromHex (c.Params "eventLogId") = (NilObjectID, some err) :=
    Prod.ext hnil herr
  refine ⟨⟨err, hpair⟩, ?_, ?_, ?_⟩
  · rw [getData_eq, hnil]
  · intro hzero
    rw [getData_eq, hnil]
    cases fault with
    | some e => simp [FindOne, SingleResultDecode]
    | none => simp [FindOne, SingleResultDecode, find_eq_none_of_no_id hzero]
  · rw [getData_eq]
    cases SingleResultDecode
      (FindOne fault coll (ObjectIDFromHex (c.Params "eventLogId")).1) <;> simp

/-- Instance of C9 amended: an id that is not hexadecimal, looked up in the
collection left by one create. -/
theorem getData_invalid_id_witness :
    isObjectIDHex "not-an-id" = false ∧
      (getData ⟨fun _ => "not-an-id", Except.ok EventLog.zero⟩ none
        [loginDocument]).code = 500 :=
  ⟨by decide,
    ((getData_invalid_id ⟨fun _ => "not-an-id", Except.ok EventLog.zero⟩ none
      [loginDocument] (by decide)).2.2.1
        (fun d hd hid => by
          rw [List.mem_singleton] at hd
          subst hd
          exact absurd (Stored.typed.inj hid) (by decide))).1⟩

/-! ## Properties of `getAllData` -/

/-- C7 fails on the code: on the empty collection, the query succeeding,
`getAllData` answers 200 with message "success", but the loop never appends to
`eventLogs`, so the payload is the nil slice of line 92, written as `null`,
and not an empty sequence, which would be written as `[]`. -/
theorem getAllData_empty_is_nil :
    getAllData none [] = ⟨200, ⟨200, "success", Payload.records Slice.nil⟩⟩ ∧
      (Slice.nil : Slice EventLog).isJSONNull = true ∧
      (Slice.of ([] : List EventLog)).isJSONNull = false ∧
      Payload.records Slice.nil ≠ Payload.records (Slice.of []) := by
  refine ⟨rfl, rfl, rfl, ?_⟩
  intro h
  cases h

/-- C8: whatever the collection holds, when the query fails or some document
does not decode, `getAllData` answers 500 in an error envelope whose payload
is a diagnostic string, so never a list of records, not even of the documents
decoded before the failure. -/
theorem getAllData_all_or_nothing (fault : Option String) (coll : Collection)
    (h : (∃ err, fault = some err) ∨
      ∃ d ∈ coll, ∃ err, CursorDecode d = Except.error err) :
    (getAllData fault coll).code = 500 ∧
      (getAllData fault coll).body.Status = 500 ∧
      (∃ msg, (getAllData fault coll).body.Data = Payload.diagnostic msg) ∧
      ∀ eventLogs, (getAllData fault coll).body.Data ≠ Payload.records eventLogs := by
  cases fault with
  | some err => simp [getAllData, Find, StatusInternalServerError]
  | none =>
    rcases h with ⟨err, herr⟩ | ⟨d, hd, hbad⟩
    · cases herr
    · obtain ⟨err, herr⟩ := decodeAll_error_of_mem hd hbad Slice.nil
      simp [getAllData, Find, herr, StatusInternalServerError]

/-- Instance of C8: the first of two documents decodes, the second holds a
number under `created`. -/
theorem getAllData_all_or_nothing_witness :
    CursorDecode numericCreatedDocument =
        Except.error "error decoding key created: cannot decode double into a string type" ∧
      (getAllData none [loginDocument, numericCreatedDocument]).code = 500 ∧
      (getAllData none [loginDocument, numericCreatedDocument]).body.Status = 500 ∧
      (getAllData none [loginDocument, numericCreatedDocument]).body.Data =
        Payload.diagnostic
          "error decoding key created: cannot decode double into a string type" :=
  have h := getAllData_all_or_nothing none [loginDocument, numericCreatedDocument]
    (Or.inr ⟨numericCreatedDocument, by simp, _, rfl⟩)
  ⟨rfl, h.1, h.2.1, rfl⟩

/-- C5 fails on the code at N = 0: with no create made on the empty
collection, `getAllData` answers 200 with the nil slice, written as `null`,
and not with a sequence of no records; the defect is the one of C7. For two
creates, one of them with a number, a nested document and an array in its
details, the listing is the sequence of the two records as submitted. -/
theorem getAllData_no_creates_is_nil :
    getAllData none (createAll [] []) =
        ⟨200, ⟨200, "success", Payload.records Slice.nil⟩⟩ ∧
      (Slice.nil : Slice EventLog).isJSONNull = true ∧
      getAllData none
          (createAll [(submit loginPayload, idA, idB), (submit countPayload, idC, idD)] []) =
        ⟨200, ⟨200, "success", Payload.records
          (Slice.of [storedRecord loginPayload idA, storedRecord countPayload idC])⟩⟩ := by
  exact ⟨rfl, rfl, rfl⟩

/-! ## The envelope -/

/-- C10, as stated, fails: when a document does not decode, here for a number
stored under `created`, the message of the envelope `getAllData` answers with
is "error parsing top level data", which is neither "success" nor "error". -/
theorem getAllData_message_other :
    (getAllData none [loginDocument, numericCreatedDocument]).body.Message =
        "error parsing top level data" ∧
      ¬ ((getAllData none [loginDocument, numericCreatedDocument]).body.Message = "success" ∨
        (getAllData none [loginDocument, numericCreatedDocument]).body.Message = "error") := by
  decide

/-- C10, amended: on every path the message of the envelope is "success" or
"error" for `getData` and `postData`, and "success", "error" or "error parsing
top level data" for `getAllData`, the last exactly when the query succeeded
and some document did not decode. -/
theorem envelope_message (c : Ctx) (newId autoId : ObjectID) (fault : Option String)
    (coll : Collection) :
    ((getData c fault coll).body.Message = "success" ∨
        (getData c fault coll).body.Message = "error") ∧
      ((postData c newId autoId fault coll).1.body.Message = "success" ∨
        (postData c newId autoId fault coll).1.body.Message = "error") ∧
      ((getAllData fault coll).body.Message = "success" ∨
        (getAllData fault coll).body.Message = "error" ∨
        (getAllData fault coll).body.Message = "error parsing top level data") ∧
      ((getAllData fault coll).body.Message = "error parsing top level data" ↔
        fault = none ∧ ∃ d ∈ coll, ∃ err, CursorDecode d = Except.error err) := by
  refine ⟨?_, ?_, ?_, ?_⟩
  · rw [getData_eq]
    cases SingleResultDecode
      (FindOne fault coll (ObjectIDFromHex (c.Params "eventLogId")).1) <;> simp
  · unfold postData
    cases c.BodyParser with
    | error err => simp
    | ok eventLog =>
      cases hv : validateStruct eventLog with
      | some msg => simp [hv]
      | none =>
        cases fault with
        | some err => simp [hv, InsertOne]
        | none => simp [hv, InsertOne]
  · unfold getAllData
    cases fault with
    | some err => simp [Find]
    | none => cases hdec : decodeAll coll Slice.nil <;> simp [Find, hdec]
  · unfold getAllData
    cases fault with
    | some err => simp [Find]
    | none =>
      cases hdec : decodeAll coll Slice.nil with
      | error err =>
        simp only [Find, hdec, true_and, true_iff]
        exact decodeAll_error_exists hdec
      | ok eventLogs =>
        simp only [Find, hdec, true_and]
        constructor
        · intro h
          exact absurd h (by decide)
        · rintro ⟨d, hd, err, herr⟩
          obtain ⟨ev, hev⟩ := decodeAll_ok_forall hdec d hd
          rw [hev] at herr
          cases herr

/-! ## Create, then read back -/

/-- The route `/data` binds no parameter: whatever the query string of a GET
request on it, `getData` runs with `c.Params("eventLogId")` empty. -/
theorem serve_data (query : List (String × String)) (body : Except String EventLog)
    (newId autoId : ObjectID) (fault : Option String) (coll : Collection) :
    serve ⟨"GET", "/data", query, body⟩ newId autoId fault coll =
      some (getData ⟨fun _ => "", body⟩ fault coll, coll) := by
  rfl

/-- C2 fails on the code. The login payload is created with 201; the id in
the acknowledgment is the `_id` the driver gave the document (`idB`), not the
`id` field (`idA`) that `getData` filters on, so `getData` called with the
returned id answers 500; and through the route registered by `main`, which
binds no `eventLogId` parameter, a GET on `/data` answers 500 whichever of the
two ids the request names, as the lookup is made with the zero id. -/
theorem create_then_getData_misses :
    postData (submit loginPayload) idA idB none [] =
        (⟨201, ⟨201, "success", Payload.inserted ⟨idB⟩⟩⟩, [loginDocument]) ∧
      (getData ⟨fun _ => Hex idB, Except.error "no body"⟩ none [loginDocument]).code = 500 ∧
      (serve ⟨"GET", "/data", [("eventLogId", Hex idB)], Except.error "no body"⟩
        idC idD none [loginDocument]).map (fun r => r.1.code) = some 500 ∧
      (serve ⟨"GET", "/data", [("eventLogId", Hex idA)], Except.error "no body"⟩
        idC idD none [loginDocument]).map (fun r => r.1.code) = some 500 ∧
      (ObjectIDFromHex "").1 = NilObjectID := by
  refine ⟨rfl, ?_, ?_, ?_, ?_⟩ <;> decide

end BehaviourAnalysis
